import Mathlib

/-!
Verification of the ncluster local backend (ncluster/local_backend.py).

The development shallowly embeds the Python module: the filesystem is a map
from absolute path strings to file contents, the external tmux session is a
parameter of type Shell giving, for each dispatched command text, the
filesystem effect and the exit status of executing it, and each Task method
becomes a Lean function threading an explicit state record Sys.

Modelling conventions:
  - Scratch and task directories are absolute in every reachable state
    (they are built from the constants /tmp/ncluster/...), so the module
    accesses scratch-derived paths with the raw path string as the key.
  - os.path calls on caller-supplied, possibly relative paths resolve
    against the cwd of the calling Python process (Sys.pcwd), never against
    the task working directory: the session performed cd taskdir, the
    Python process did not.
  - Reading the status sentinel back directly after the session wrote it
    yields the integer the session wrote, so the write-then-parse pair in
    Task.run is collapsed to the written status value.
  - The bare Python assert statements are modelled as
    LocalError.invariantViolation results, matching the specification
    taxonomy; RuntimeError from run / run_with_output becomes
    LocalError.commandFailure / LocalError.commandFailureOutput.
-/

/-- A filesystem: absolute path strings to file contents. -/
def FileSystem : Type := String → Option String

/-- Write (or overwrite) the file at path p with contents v. -/
def FileSystem.update (fs : FileSystem) (p v : String) : FileSystem :=
  fun q => if q = p then some v else fs q

/-- Decimal digit character, as produced by Python string formatting. -/
def digitCh : Nat → Char
  | 0 => '0'
  | 1 => '1'
  | 2 => '2'
  | 3 => '3'
  | 4 => '4'
  | 5 => '5'
  | 6 => '6'
  | 7 => '7'
  | 8 => '8'
  | _ => '9'

/-- Inverse of digitCh on the ten digit characters. -/
def chDigit (c : Char) : Nat :=
  if c = '0' then 0
  else if c = '1' then 1
  else if c = '2' then 2
  else if c = '3' then 3
  else if c = '4' then 4
  else if c = '5' then 5
  else if c = '6' then 6
  else if c = '7' then 7
  else if c = '8' then 8
  else 9

/-- Big-endian decimal digit characters of n, computed with fuel so that the
definition is structurally recursive; decChars fuel n is exact once n ≤ fuel. -/
def decChars : Nat → Nat → List Char
  | _, 0 => []
  | 0, _ + 1 => []
  | fuel + 1, n + 1 => decChars fuel ((n + 1) / 10) ++ [digitCh ((n + 1) % 10)]

/-- Decimal representation of a natural number, as produced by a Python
f-string such as the one building the per-command sentinel filenames. -/
def decRepr (n : Nat) : String :=
  if n = 0 then "0" else (decChars n n).asString

/-- Numeric value of a big-endian list of digit characters. -/
def charsVal (l : List Char) : Nat :=
  l.foldl (fun a c => 10 * a + chDigit c) 0

/-- Decimal representation of an integer exit status. -/
def decIntRepr (i : Int) : String :=
  if i < 0 then "-" ++ decRepr i.natAbs else decRepr i.toNat

/-- Python str.strip: drop leading and trailing whitespace. -/
def pyStrip (s : String) : String :=
  (((s.toList.dropWhile Char.isWhitespace).reverse.dropWhile Char.isWhitespace).reverse).asString

/-- Modelled from the spec: util.shell_strip_comment (the util module is not
under src/); strip trailing inline comments, keeping the text before the
first comment marker. -/
def shell_strip_comment (s : String) : String :=
  (s.toList.takeWhile (fun c => c != '#')).asString

/-- Python os.path.isabs on POSIX: the path starts with a slash. -/
def isAbs (p : String) : Bool :=
  decide (p.toList.head? = some '/')

/-- Resolution of a possibly relative path against a current directory,
as performed by the os.path calls of the Python process. -/
def resolve (cwd p : String) : String :=
  if isAbs p then p else cwd ++ "/" ++ p

/-- Python os.path.basename: the component after the last slash. -/
def basename (p : String) : String :=
  ((p.toList.reverse.takeWhile (fun c => c != '/')).reverse).asString

/-- The single-quote character, written via its code point. -/
def squote : Char := Char.ofNat 39

/-- Characters shlex.quote leaves unquoted. -/
def shlexSafe (c : Char) : Bool :=
  c.isAlphanum || (['_', '@', '%', '+', '=', ':', ',', '.', '/', '-'].contains c)

/-- Python shlex.quote: single-quote a token for a POSIX shell. -/
def shlex_quote (s : String) : String :=
  if s = "" then List.asString [squote, squote]
  else if s.toList.all shlexSafe then s
  else
    List.asString
      ([squote] ++
        (s.toList.flatMap (fun c =>
          if c = squote then [squote, '"', squote, '"', squote] else [c])) ++
        [squote])

/-- Path of the per-command sentinel status file: scratch/n.status. -/
def statusFn (scratch : String) (n : Nat) : String :=
  scratch ++ "/" ++ decRepr n ++ ".status"

/-- Path of the per-command audit file: scratch/n.cmd. -/
def cmdFn (scratch : String) (n : Nat) : String :=
  scratch ++ "/" ++ decRepr n ++ ".cmd"

/-- Path of the per-command captured stdout: scratch/n.stdout. -/
def stdoutFn (scratch : String) (n : Nat) : String :=
  scratch ++ "/" ++ decRepr n ++ ".stdout"

/-- Path of the per-command captured stderr: scratch/n.stderr. -/
def stderrFn (scratch : String) (n : Nat) : String :=
  scratch ++ "/" ++ decRepr n ++ ".stderr"

/-- Which defensive assertion of the module failed. -/
inductive AssertKind where
  | sentinelExists
  | backgroundingChar
  | multilineCommand
  | absoluteRemotePath
  | jobNameMissing
  | jobNameDots
  | jobNumTasks
deriving DecidableEq

/-- Failures surfaced by the local backend, following the error taxonomy of
the design: invariant violations (assert), command failures (RuntimeError),
and the wait timeout. -/
inductive LocalError where
  | invariantViolation (kind : AssertKind) (detail : String)
  | commandFailure (cmd : String) (status : Int)
  | commandFailureOutput (cmd : String) (status : Int) (stdout stderr : String)
  | timeoutError (fn : String)
deriving DecidableEq

instance {ε α : Type} [DecidableEq ε] [DecidableEq α] : DecidableEq (Except ε α) := fun x y =>
  match x, y with
  | Except.ok a, Except.ok b =>
    if h : a = b then isTrue (by rw [h])
    else isFalse (by intro hc; injection hc; contradiction)
  | Except.error a, Except.error b =>
    if h : a = b then isTrue (by rw [h])
    else isFalse (by intro hc; injection hc; contradiction)
  | Except.ok _, Except.error _ => isFalse (by intro hc; exact Except.noConfusion hc)
  | Except.error _, Except.ok _ => isFalse (by intro hc; exact Except.noConfusion hc)

/-- State of one local Task together with the world it touches: its name and
tmux window, its directories, the cwd of the Python process, the command
counter, the filesystem, the texts sent to the tmux session (most recent
first), and the log messages (most recent first). -/
structure Sys where
  name : String
  tmux_window : String
  taskdir : String
  scratch : String
  pcwd : String
  run_counter : Nat
  fs : FileSystem
  sent : List String
  log : List String

/-- The external serial session: executing one (comment-stripped) command
text against a filesystem yields the new filesystem and the exit status. -/
def Shell : Type := String → FileSystem → FileSystem × Int

/-- Guard of Task.run and Task.run_with_output on the stripped command:
empty lines and lines starting with the comment marker are ignored. -/
def emptyOrComment (s : String) : Prop :=
  s.toList = [] ∨ s.toList.head? = some '#'

instance (s : String) : Decidable (emptyOrComment s) := by
  unfold emptyOrComment; infer_instance

/-- Task.file_exists: os.path.exists on the path exactly as given. -/
def file_exists (st : Sys) (remote_fn : String) : Bool :=
  (st.fs (resolve st.pcwd remote_fn)).isSome

/-- Task.file_read: contents if the file exists, else the empty string. -/
def file_read (st : Sys) (remote_fn : String) : String :=
  if file_exists st remote_fn then (st.fs (resolve st.pcwd remote_fn)).getD "" else ""

/-- Task.run: the command dispatch protocol. Increments the counter, drops
empty and comment lines, logs, checks the sentinel does not pre-exist,
strips trailing comments, rejects backgrounding, persists the command text,
sends the composed text to the session, and in sync mode lets the session
execute the command, writes its status sentinel, and gates on the status. -/
def run (sh : Shell) (st0 : Sys) (cmd0 : String) (async0 ignore_errors : Bool) :
    Sys × Except LocalError Int :=
  let st1 : Sys := { st0 with run_counter := st0.run_counter + 1 }
  let cmd1 : String := pyStrip cmd0
  if emptyOrComment cmd1 then (st1, Except.ok (-1))
  else
    let st2 : Sys := { st1 with log := ("tmux> " ++ cmd1) :: st1.log }
    let cmd_fn : String := cmdFn st2.scratch st2.run_counter
    let status_fn : String := statusFn st2.scratch st2.run_counter
    if st2.fs status_fn = none then
      let cmd2 : String := shell_strip_comment cmd1
      if '&' ∈ cmd2.toList then
        (st2, Except.error (LocalError.invariantViolation AssertKind.backgroundingChar cmd2))
      else
        let st3 : Sys := { st2 with fs := st2.fs.update cmd_fn (cmd2 ++ "\n") }
        let modified_cmd : String := cmd2 ++ " ; echo $? > " ++ status_fn
        let tmux_cmd : String :=
          "tmux send-keys -t " ++ st3.tmux_window ++ " " ++ shlex_quote modified_cmd ++ " Enter"
        let st4 : Sys := { st3 with sent := tmux_cmd :: st3.sent }
        if async0 then (st4, Except.ok (-1))
        else
          let ex := sh cmd2 st4.fs
          let status : Int := ex.2
          let st5 : Sys := { st4 with fs := ex.1.update status_fn (decIntRepr status ++ "\n") }
          if status = 0 then (st5, Except.ok status)
          else if ignore_errors then
            ({ st5 with log :=
                ("Warning: command " ++ cmd2 ++ " returned status " ++ decIntRepr status)
                  :: st5.log },
              Except.ok status)
          else (st5, Except.error (LocalError.commandFailure cmd2 status))
    else
      (st2, Except.error (LocalError.invariantViolation AssertKind.sentinelExists status_fn))

/-- Task.run_with_output: redirect stdout and stderr of a single-line
command into scratch files named from the current counter, dispatch through
run with errors suppressed, read both captures back, and gate on a positive
returned status. -/
def run_with_output (sh : Shell) (st0 : Sys) (cmd0 : String) (async0 ignore_errors : Bool) :
    Sys × Except LocalError (String × String) :=
  let cmd1 : String := pyStrip cmd0
  if emptyOrComment cmd1 then (st0, Except.ok ("", ""))
  else
    let st1 : Sys := { st0 with log := ("----" ++ cmd1) :: st0.log }
    if '\n' ∈ cmd1.toList then
      (st1, Except.error (LocalError.invariantViolation AssertKind.multilineCommand cmd1))
    else
      let stdout_fn : String := stdoutFn st1.scratch st1.run_counter
      let stderr_fn : String := stderrFn st1.scratch st1.run_counter
      let cmd2 : String := cmd1 ++ " > " ++ stdout_fn ++ " 2> " ++ stderr_fn
      match run sh st1 cmd2 async0 true with
      | (st2, Except.error e) => (st2, Except.error e)
      | (st2, Except.ok status) =>
        let out1 : String := file_read st2 stdout_fn
        let err1 : String := file_read st2 stderr_fn
        if 0 < status then
          let st3 : Sys := { st2 with log :=
            ("Warning: command " ++ cmd1 ++ " returned " ++ decIntRepr status) :: st2.log }
          if ignore_errors then (st3, Except.ok (out1, err1))
          else (st3, Except.error (LocalError.commandFailureOutput cmd1 status out1 err1))
        else (st2, Except.ok (out1, err1))

/-- Task.upload: default the destination to the basename, skip when
dont_overwrite is set and the destination path (as given) exists, reject
absolute destinations, then copy into the task directory by dispatching a
cp command through run. -/
def upload (sh : Shell) (st0 : Sys) (local_fn : String) (remote_fn0 : Option String)
    (dont_overwrite : Bool) : Sys × Except LocalError Unit :=
  let st1 : Sys := { st0 with log := ("uploading " ++ local_fn) :: st0.log }
  let remote_fn : String := match remote_fn0 with | none => basename local_fn | some r => r
  if dont_overwrite && file_exists st1 remote_fn then
    ({ st1 with log := ("Remote file " ++ remote_fn ++ " exists, skipping") :: st1.log },
      Except.ok ())
  else if isAbs remote_fn then
    (st1, Except.error (LocalError.invariantViolation AssertKind.absoluteRemotePath remote_fn))
  else
    let remote_fn2 : String := st1.taskdir ++ "/" ++ remote_fn
    let local_fn2 : String := resolve st1.pcwd local_fn
    match run sh st1 ("cp -R " ++ local_fn2 ++ " " ++ remote_fn2) false false with
    | (st2, Except.error e) => (st2, Except.error e)
    | (st2, Except.ok _) => (st2, Except.ok ())

/-- Task.file_write: write the contents to a fresh scratch temp file named
from the microsecond timestamp, then delegate to upload. -/
def file_write (sh : Shell) (st0 : Sys) (remote_fn contents : String) (micros : Nat) :
    Sys × Except LocalError Unit :=
  let tmp_fn : String := st0.scratch ++ "/file_write." ++ decRepr micros
  let st1 : Sys := { st0 with fs := st0.fs.update tmp_fn contents }
  upload sh st1 tmp_fn (some remote_fn) false

/-- Outcome of the wait-for-file polling loop. -/
inductive WaitOutcome where
  | found (k : Nat)
  | timedOut
  | fuelOut
deriving DecidableEq

/-- One polling loop of Task._wait_for_file: at poll k, first fail with the
timeout when the elapsed time exceeds max_wait, otherwise stop when the file
exists, otherwise sleep and poll again. The extra fuel argument only makes
the recursion structural; wait_for_file supplies enough fuel that the
fuelOut branch is unreachable (theorem on waiting below). -/
def wait_go (ex : Nat → Bool) (elapsed : Nat → Nat) (max_wait : Nat) :
    Nat → Nat → WaitOutcome
  | 0, _ => WaitOutcome.fuelOut
  | fuel + 1, k =>
    if max_wait < elapsed k then WaitOutcome.timedOut
    else if ex k then WaitOutcome.found k
    else wait_go ex elapsed max_wait fuel (k + 1)

/-- Task._wait_for_file: ex k tells whether the file exists at poll k, and
elapsed k is the time observed at poll k (strictly increasing in reality:
each iteration sleeps for the positive poll interval). -/
def wait_for_file (ex : Nat → Bool) (elapsed : Nat → Nat) (max_wait : Nat) : WaitOutcome :=
  wait_go ex elapsed max_wait (max_wait + 2) 0

/-- Record of a Task as constructed by make_task: its name and its tmux
window name (dots are not legal in session names, so they become dashes). -/
structure LTask where
  name : String
  tmux_window : String
deriving DecidableEq

/-- Python str.replace of dots by dashes, character-wise. -/
def pyReplaceDotDash (s : String) : String :=
  (s.toList.map (fun c => if c = '.' then '-' else c)).asString

/-- The make_task factory: default the name to a microsecond timestamp and
derive the tmux window name. The constructor also tears down and recreates
the session and provisions directories; those effects live in Sys and the
Shell and are not needed for the naming claims. -/
def make_task (name0 : Option String) (micros : Nat) : LTask :=
  let nm : String := match name0 with | none => decRepr micros | some s => s
  { name := nm, tmux_window := pyReplaceDotDash nm ++ ":0" }

/-- Modelled from the spec: backend.Job (the backend module is not under
src/) — a named, ordered group of Tasks. The back-reference to the Run is
represented by returning the Run alongside the Job. -/
structure Job where
  name : String
  tasks : List LTask
deriving DecidableEq

/-- Modelled from the spec: backend.Run (the backend module is not under
src/) — the top-level namespace grouping Jobs. -/
structure Run where
  name : Option String
  jobs : List Job
deriving DecidableEq

/-- The make_job factory: requires a positive task count and at most one
dot in the job name, builds the indexed tasks, a fresh Run and the Job
holding the tasks, and appends the Job to the Run. -/
def make_job (name0 : Option String) (num_tasks : Nat) (run_name : Option String) :
    Except LocalError (Run × Job) :=
  if num_tasks = 0 then
    Except.error (LocalError.invariantViolation AssertKind.jobNumTasks (decRepr num_tasks))
  else
    match name0 with
    | none => Except.error (LocalError.invariantViolation AssertKind.jobNameMissing "")
    | some nm =>
      if 1 < nm.toList.count '.' then
        Except.error (LocalError.invariantViolation AssertKind.jobNameDots nm)
      else
        let tasks : List LTask :=
          (List.range num_tasks).map (fun i => make_task (some (decRepr i ++ "." ++ nm)) 0)
        let job : Job := { name := nm, tasks := tasks }
        Except.ok ({ name := run_name, jobs := [job] }, job)

/-- Invariant of one Task generation: no status sentinel exists for any
counter value beyond the current one (the constructor wipes the scratch
directory, so the fresh state satisfies this with counter 0). -/
def SentinelFree (st : Sys) : Prop :=
  ∀ k, st.run_counter < k → st.fs (statusFn st.scratch k) = none

/-- The dispatched commands never touch the sentinel paths of the scratch
directory themselves (the design: only the owning Task writes there; the
sentinel write is appended by run, not part of the user command). -/
def BenignShell (sh : Shell) (scratch : String) : Prop :=
  ∀ c f k, (sh c f).1 (statusFn scratch k) = f (statusFn scratch k)

/-- Scratch temp file used by file_write for a given timestamp. -/
def fileWriteTmp (st : Sys) (micros : Nat) : String :=
  st.scratch ++ "/file_write." ++ decRepr micros

/-- Copy command dispatched by file_write via upload, once the temp path is
absolute (so its resolution is the identity). -/
def fileWriteCp (st : Sys) (remote : String) (micros : Nat) : String :=
  "cp -R " ++ fileWriteTmp st micros ++ " " ++ (st.taskdir ++ "/" ++ remote)

/-- A shell in which every command succeeds and changes nothing. -/
def sh0 : Shell := fun _ f => (f, 0)

/-- A shell in which every command exits with status 1 and changes nothing. -/
def shFail : Shell := fun _ f => (f, 1)

/-- A shell that behaves as the copy command of the concrete file_write
scenario below: it materialises the scratch temp file at /td/f. -/
def shCp : Shell :=
  fun _ f => (FileSystem.update f "/td/f" ((f "/sc/file_write.7").getD "xx"), 0)

/-- A concrete freshly-constructed Task state: empty filesystem, counter 0,
process cwd /h distinct from the task working directory /td. -/
def st0c : Sys :=
  { name := "t0", tmux_window := "t0:0", taskdir := "/td", scratch := "/sc",
    pcwd := "/h", run_counter := 0, fs := fun _ => none, sent := [], log := [] }

/-- The same concrete state with the process cwd equal to the task
working directory. -/
def st1c : Sys := { st0c with pcwd := "/td" }

/-- A filesystem holding exactly one file, at the absolute path /x. -/
def fsX : FileSystem := fun p => if p = "/x" then some "y" else none

/-- The concrete state in which the absolute path /x exists. -/
def stAbs : Sys := { st0c with fs := fsX }

example : decRepr 0 = "0" := by decide
example : decRepr 137 = "137" := by decide
example : pyStrip "  hi there  " = "hi there" := by decide
example : shell_strip_comment "echo a # note" = "echo a " := by decide
example : isAbs "/tmp/x" = true := by decide
example : basename "/a/b/c.txt" = "c.txt" := by decide
example : shlex_quote "ab" = "ab" := by decide

theorem FileSystem.update_self (fs : FileSystem) (p v : String) :
    FileSystem.update fs p v p = some v := by
  simp [FileSystem.update]

theorem FileSystem.update_ne (fs : FileSystem) (p v q : String) (h : q ≠ p) :
    FileSystem.update fs p v q = fs q := by
  simp [FileSystem.update, h]

theorem chDigit_digitCh (d : Nat) (h : d < 10) : chDigit (digitCh d) = d := by
  interval_cases d <;> rfl

theorem charsVal_append_digit (l : List Char) (c : Char) :
    charsVal (l ++ [c]) = 10 * charsVal l + chDigit c := by
  simp [charsVal, List.foldl_append]

theorem charsVal_decChars : ∀ fuel n, n ≤ fuel → charsVal (decChars fuel n) = n := by
  intro fuel
  induction fuel with
  | zero =>
    intro n hn
    have h0 : n = 0 := by omega
    rw [h0]; rfl
  | succ fuel ih =>
    intro n hn
    match n with
    | 0 => rfl
    | m + 1 =>
      simp only [decChars]
      rw [charsVal_append_digit]
      have hdiv : (m + 1) / 10 ≤ fuel := by
        have h1 : (m + 1) / 10 < m + 1 := Nat.div_lt_self (Nat.succ_pos m) (by norm_num)
        omega
      rw [ih _ hdiv, chDigit_digitCh _ (Nat.mod_lt _ (by norm_num))]
      exact Nat.div_add_mod (m + 1) 10

theorem decRepr_injective : ∀ a b : Nat, decRepr a = decRepr b → a = b := by
  have key : ∀ n : Nat, n ≠ 0 → charsVal (decRepr n).data = n := by
    intro n hn
    unfold decRepr
    rw [if_neg hn]
    exact charsVal_decChars n n le_rfl
  intro a b h
  have hv := congrArg (fun s : String => charsVal s.data) h
  simp only at hv
  by_cases ha : a = 0 <;> by_cases hb : b = 0
  · rw [ha, hb]
  · exfalso
    rw [ha] at hv
    rw [key b hb] at hv
    have h0 : charsVal (decRepr 0).data = 0 := by decide
    rw [h0] at hv
    exact hb hv.symm
  · exfalso
    rw [hb] at hv
    rw [key a ha] at hv
    have h0 : charsVal (decRepr 0).data = 0 := by decide
    rw [h0] at hv
    exact ha hv
  · rw [key a ha, key b hb] at hv
    exact hv

theorem getLast?_append_right {α : Type} (l1 l2 : List α) (x : α)
    (h : l2.getLast? = some x) : (l1 ++ l2).getLast? = some x := by
  rw [List.getLast?_append, h]
  rfl

theorem statusFn_inj (s : String) (a b : Nat) (h : statusFn s a = statusFn s b) : a = b := by
  have hd := congrArg String.data h
  unfold statusFn at hd
  rw [String.data_append, String.data_append, String.data_append, String.data_append,
    String.data_append, String.data_append] at hd
  have h1 := List.append_cancel_right hd
  have h2 := List.append_cancel_left h1
  exact decRepr_injective a b (String.ext h2)

theorem statusFn_ne_cmdFn (s t : String) (a b : Nat) : statusFn s a ≠ cmdFn t b := by
  intro h
  have hd := congrArg (fun x : String => x.data.getLast?) h
  simp only at hd
  have h1 : (statusFn s a).data.getLast? = some 's' := by
    unfold statusFn
    rw [String.data_append]
    exact getLast?_append_right _ _ _ (by decide)
  have h2 : (cmdFn t b).data.getLast? = some 'd' := by
    unfold cmdFn
    rw [String.data_append]
    exact getLast?_append_right _ _ _ (by decide)
  rw [h1, h2] at hd
  exact absurd hd (by decide)

theorem isAbs_append (s t : String) (h : isAbs s = true) : isAbs (s ++ t) = true := by
  unfold isAbs at *
  rw [decide_eq_true_eq] at h ⊢
  simp only [String.toList] at h ⊢
  rw [String.data_append, List.head?_append, h]
  rfl

theorem resolve_abs (cwd p : String) (h : isAbs p = true) : resolve cwd p = p := by
  simp [resolve, h]

theorem resolve_rel (cwd p : String) (h : isAbs p = false) :
    resolve cwd p = cwd ++ "/" ++ p := by
  simp [resolve, h]

theorem shell_strip_comment_toList (s : String) :
    (shell_strip_comment s).toList = s.toList.takeWhile (fun c => c != '#') := rfl

theorem amp_not_emptyOrComment (s : String)
    (h : '&' ∈ (shell_strip_comment s).toList) : ¬ emptyOrComment s := by
  intro hec
  rw [shell_strip_comment_toList] at h
  cases hec with
  | inl h0 =>
    rw [h0] at h
    simp at h
  | inr h0 =>
    cases hl : s.toList with
    | nil =>
      rw [hl] at h
      simp at h
    | cons c rest =>
      rw [hl] at h0 h
      have hc : c = '#' := by simpa using h0
      rw [hc] at h
      simp [List.takeWhile_cons] at h

/-- Claim C3 counterexample: dispatching the empty command through run does
return the sentinel -1, but it increments the externally observable command
counter from 0 to 1, contradicting the claim that no counter state changes. -/
theorem run_noop_increments_counter :
    (run sh0 st0c "" false false).2 = Except.ok (-1)
    ∧ (run sh0 st0c "" false false).1.run_counter = 1
    ∧ st0c.run_counter = 0 := by
  refine ⟨by decide, by decide, by decide⟩

/-- Claim C3 (amended): dispatching an empty or comment-only command is a
no-op returning the sentinel -1 and leaving the state unchanged, except that
the command counter is still incremented by one (the increment precedes the
empty/comment check in run). -/
theorem run_noop_behaviour (sh : Shell) (st : Sys) (cmd : String) (a ie : Bool)
    (h : emptyOrComment (pyStrip cmd)) :
    run sh st cmd a ie = ({ st with run_counter := st.run_counter + 1 }, Except.ok (-1)) := by
  simp only [run]
  rw [if_pos h]

/-- Witness for the amended C3 theorem at a concrete comment-only command. -/
theorem run_noop_behaviour_witness :
    emptyOrComment (pyStrip "# set up the env")
    ∧ run sh0 st0c "# set up the env" false false
        = ({ st0c with run_counter := st0c.run_counter + 1 }, Except.ok (-1)) :=
  ⟨by decide, run_noop_behaviour sh0 st0c "# set up the env" false false (by decide)⟩

/-- Claim C2: for every Task state and dispatched command, run increments
the command counter by exactly one (so counters strictly increase across
calls); under the generation invariant SentinelFree — established by the
constructor, which wipes the scratch directory — the sentinel filename
derived from the new counter value does not pre-exist at dispatch time, the
defensive sentinel assertion never fires, and the invariant is preserved
for the next call, provided dispatched commands do not themselves write
sentinel paths (BenignShell). -/
theorem run_counter_sentinel_invariant (sh : Shell) (st : Sys) (cmd : String) (a ie : Bool)
    (hb : BenignShell sh st.scratch) (hfree : SentinelFree st) :
    (run sh st cmd a ie).1.run_counter = st.run_counter + 1
    ∧ (run sh st cmd a ie).1.scratch = st.scratch
    ∧ st.fs (statusFn st.scratch (st.run_counter + 1)) = none
    ∧ (∀ d, (run sh st cmd a ie).2
        ≠ Except.error (LocalError.invariantViolation AssertKind.sentinelExists d))
    ∧ SentinelFree (run sh st cmd a ie).1 := by
  have hfresh : st.fs (statusFn st.scratch (st.run_counter + 1)) = none :=
    hfree _ (Nat.lt_succ_self _)
  have hcmdne : ∀ k, statusFn st.scratch k ≠ cmdFn st.scratch (st.run_counter + 1) :=
    fun k => statusFn_ne_cmdFn _ _ _ _
  have hstatne : ∀ k, st.run_counter + 1 < k →
      statusFn st.scratch k ≠ statusFn st.scratch (st.run_counter + 1) := by
    intro k hk heq
    have := statusFn_inj _ _ _ heq
    omega
  simp only [run]
  by_cases h1 : emptyOrComment (pyStrip cmd)
  · rw [if_pos h1]
    exact ⟨rfl, rfl, hfresh, fun d hd => Except.noConfusion hd,
      fun k hk => hfree k (Nat.lt_of_succ_lt hk)⟩
  · rw [if_neg h1, if_pos hfresh]
    by_cases h2 : '&' ∈ (shell_strip_comment (pyStrip cmd)).toList
    · rw [if_pos h2]
      refine ⟨rfl, rfl, hfresh, ?_, fun k hk => hfree k (Nat.lt_of_succ_lt hk)⟩
      intro d hd
      simp at hd
    · rw [if_neg h2]
      cases a with
      | true =>
        rw [if_pos rfl]
        refine ⟨rfl, rfl, hfresh, fun d hd => Except.noConfusion hd, ?_⟩
        intro k hk
        show FileSystem.update _ _ _ _ = none
        rw [FileSystem.update_ne _ _ _ _ (hcmdne k)]
        exact hfree k (Nat.lt_of_succ_lt hk)
      | false =>
        rw [if_neg (by simp)]
        have hfs : ∀ k, st.run_counter + 1 < k →
            (FileSystem.update
              (sh (shell_strip_comment (pyStrip cmd))
                (FileSystem.update st.fs (cmdFn st.scratch (st.run_counter + 1))
                  (shell_strip_comment (pyStrip cmd) ++ "\n"))).1
              (statusFn st.scratch (st.run_counter + 1))
              (decIntRepr (sh (shell_strip_comment (pyStrip cmd))
                (FileSystem.update st.fs (cmdFn st.scratch (st.run_counter + 1))
                  (shell_strip_comment (pyStrip cmd) ++ "\n"))).2 ++ "\n"))
              (statusFn st.scratch k) = none := by
          intro k hk
          rw [FileSystem.update_ne _ _ _ _ (hstatne k hk)]
          rw [hb]
          rw [FileSystem.update_ne _ _ _ _ (hcmdne k)]
          exact hfree k (Nat.lt_of_succ_lt hk)
        refine ⟨?_, ?_, hfresh, ?_, ?_⟩
        · split
          · rfl
          · split
            · rfl
            · rfl
        · split
          · rfl
          · split
            · rfl
            · rfl
        · intro d hd
          revert hd
          split
          · intro hd; exact Except.noConfusion hd
          · split
            · intro hd; exact Except.noConfusion hd
            · intro hd; simp at hd
        · intro k hk
          revert hk
          split
          · intro hk; exact hfs k hk
          · split
            · intro hk; exact hfs k hk
            · intro hk; exact hfs k hk

/-- Witness for the C2 theorem at a concrete fresh state and trivial shell. -/
theorem run_counter_sentinel_invariant_witness :
    BenignShell sh0 st0c.scratch ∧ SentinelFree st0c
    ∧ ((run sh0 st0c "pwd" false false).1.run_counter = st0c.run_counter + 1
      ∧ (run sh0 st0c "pwd" false false).1.scratch = st0c.scratch
      ∧ st0c.fs (statusFn st0c.scratch (st0c.run_counter + 1)) = none
      ∧ (∀ d, (run sh0 st0c "pwd" false false).2
          ≠ Except.error (LocalError.invariantViolation AssertKind.sentinelExists d))
      ∧ SentinelFree (run sh0 st0c "pwd" false false).1) :=
  ⟨fun _ _ _ => rfl, fun _ _ => rfl,
    run_counter_sentinel_invariant sh0 st0c "pwd" false false
      (fun _ _ _ => rfl) (fun _ _ => rfl)⟩

/-- Claim C1: in sync mode, for a genuine command (non-empty, not a comment,
no backgrounding character after comment stripping, fresh sentinel), run
raises CommandFailure exactly when the exit status parsed back from the
sentinel is non-zero and ignore_errors is false; with ignore_errors true a
non-zero status is logged as a warning and returned without raising; and a
command exiting 0 returns status 0 without raising. -/
theorem run_sync_error_gate (sh : Shell) (st : Sys) (cmd : String) (ie : Bool) (status : Int)
    (hne : ¬ emptyOrComment (pyStrip cmd))
    (hsent : st.fs (statusFn st.scratch (st.run_counter + 1)) = none)
    (hamp : '&' ∉ (shell_strip_comment (pyStrip cmd)).toList)
    (hsh : ∀ f : FileSystem, (sh (shell_strip_comment (pyStrip cmd)) f).2 = status) :
    ((run sh st cmd false ie).2
        = Except.error (LocalError.commandFailure (shell_strip_comment (pyStrip cmd)) status)
      ↔ status ≠ 0 ∧ ie = false)
    ∧ (status = 0 → (run sh st cmd false ie).2 = Except.ok 0)
    ∧ (status ≠ 0 → ie = true →
        (run sh st cmd false ie).2 = Except.ok status
        ∧ ("Warning: command " ++ shell_strip_comment (pyStrip cmd)
            ++ " returned status " ++ decIntRepr status) ∈ (run sh st cmd false ie).1.log) := by
  simp only [run]
  rw [if_neg hne, if_pos hsent, if_neg hamp, if_neg (by simp)]
  rw [hsh]
  by_cases hs : status = 0
  · rw [if_pos hs]
    refine ⟨?_, fun _ => by rw [hs], fun hns _ => absurd hs hns⟩
    constructor
    · intro hd
      exact absurd hd (by simp)
    · intro hd
      exact absurd hs hd.1
  · rw [if_neg hs]
    cases ie with
    | true =>
      rw [if_pos rfl]
      refine ⟨?_, fun h0 => absurd h0 hs, fun _ _ => ⟨rfl, ?_⟩⟩
      · constructor
        · intro hd
          exact absurd hd (by simp)
        · intro hd
          exact absurd hd.2 (by simp)
      · exact List.mem_cons_self _ _
    | false =>
      rw [if_neg (by simp)]
      exact ⟨⟨fun _ => ⟨hs, rfl⟩, fun _ => rfl⟩,
        fun h0 => absurd h0 hs, fun _ hie => by exact absurd hie (by simp)⟩

/-- Witness for the C1 theorem: a concrete failing command under both
error modes is exercised through the theorem at status 1. -/
theorem run_sync_error_gate_witness :
    (¬ emptyOrComment (pyStrip "false"))
    ∧ st0c.fs (statusFn st0c.scratch (st0c.run_counter + 1)) = none
    ∧ '&' ∉ (shell_strip_comment (pyStrip "false")).toList
    ∧ (((run shFail st0c "false" false false).2
        = Except.error (LocalError.commandFailure (shell_strip_comment (pyStrip "false")) 1)
      ↔ (1 : Int) ≠ 0 ∧ false = false)
      ∧ ((1 : Int) = 0 → (run shFail st0c "false" false false).2 = Except.ok 0)
      ∧ ((1 : Int) ≠ 0 → false = true →
          (run shFail st0c "false" false false).2 = Except.ok 1
          ∧ ("Warning: command " ++ shell_strip_comment (pyStrip "false")
              ++ " returned status " ++ decIntRepr 1)
              ∈ (run shFail st0c "false" false false).1.log)) :=
  ⟨by decide, rfl, by decide,
    run_sync_error_gate shFail st0c "false" false 1 (by decide) rfl (by decide)
      (fun _ => rfl)⟩

/-- Claim C5: if the command text, after trailing-comment stripping, contains
the backgrounding character, run fails with the InvariantViolation of the
backgrounding assertion, and nothing is sent to the session nor written to
the filesystem (the fresh-sentinel hypothesis reflects the generation
invariant, under which the earlier sentinel assertion cannot fire first). -/
theorem run_rejects_backgrounding (sh : Shell) (st : Sys) (cmd : String) (a ie : Bool)
    (hamp : '&' ∈ (shell_strip_comment (pyStrip cmd)).toList)
    (hsent : st.fs (statusFn st.scratch (st.run_counter + 1)) = none) :
    (run sh st cmd a ie).2 = Except.error
        (LocalError.invariantViolation AssertKind.backgroundingChar
          (shell_strip_comment (pyStrip cmd)))
    ∧ (run sh st cmd a ie).1.sent = st.sent
    ∧ (run sh st cmd a ie).1.fs = st.fs := by
  have hne := amp_not_emptyOrComment _ hamp
  simp only [run]
  rw [if_neg hne, if_pos hsent, if_pos hamp]
  exact ⟨rfl, rfl, rfl⟩

/-- Witness for the C5 theorem at a concrete backgrounded command. -/
theorem run_rejects_backgrounding_witness :
    '&' ∈ (shell_strip_comment (pyStrip "sleep 10 & echo hi")).toList
    ∧ st0c.fs (statusFn st0c.scratch (st0c.run_counter + 1)) = none
    ∧ ((run sh0 st0c "sleep 10 & echo hi" false false).2 = Except.error
          (LocalError.invariantViolation AssertKind.backgroundingChar
            (shell_strip_comment (pyStrip "sleep 10 & echo hi")))
      ∧ (run sh0 st0c "sleep 10 & echo hi" false false).1.sent = st0c.sent
      ∧ (run sh0 st0c "sleep 10 & echo hi" false false).1.fs = st0c.fs) :=
  ⟨by decide, rfl,
    run_rejects_backgrounding sh0 st0c "sleep 10 & echo hi" false false (by decide) rfl⟩

theorem wait_go_found_ex (ex : Nat → Bool) (elapsed : Nat → Nat) (mw : Nat) :
    ∀ fuel k j, wait_go ex elapsed mw fuel k = WaitOutcome.found j → ex j = true := by
  intro fuel
  induction fuel with
  | zero =>
    intro k j h
    exact absurd h (by simp [wait_go])
  | succ fuel ih =>
    intro k j h
    simp only [wait_go] at h
    by_cases h1 : mw < elapsed k
    · rw [if_pos h1] at h
      exact absurd h (by simp)
    · rw [if_neg h1] at h
      by_cases h2 : ex k = true
      · rw [if_pos h2] at h
        injection h with h3
        rw [← h3]
        exact h2
      · rw [if_neg h2] at h
        exact ih _ _ h

theorem wait_go_ne_fuelOut (ex : Nat → Bool) (elapsed : Nat → Nat) (mw : Nat)
    (hm : StrictMono elapsed) :
    ∀ fuel k, mw + 2 ≤ fuel + k → k ≤ mw + 1 →
      wait_go ex elapsed mw fuel k ≠ WaitOutcome.fuelOut := by
  intro fuel
  induction fuel with
  | zero =>
    intro k h1 h2
    omega
  | succ fuel ih =>
    intro k h1 h2
    simp only [wait_go]
    by_cases ht : mw < elapsed k
    · rw [if_pos ht]
      simp
    · rw [if_neg ht]
      by_cases hex : ex k = true
      · rw [if_pos hex]
        simp
      · rw [if_neg hex]
        have ht2 : elapsed k ≤ mw := Nat.le_of_not_lt ht
        have hk2 : k ≤ elapsed k := hm.le_apply
        exact ih (k + 1) (by omega) (by omega)

theorem wait_go_all_false (ex : Nat → Bool) (elapsed : Nat → Nat) (mw : Nat)
    (hall : ∀ k, ex k = false) :
    ∀ fuel k, wait_go ex elapsed mw fuel k = WaitOutcome.timedOut
      ∨ wait_go ex elapsed mw fuel k = WaitOutcome.fuelOut := by
  intro fuel
  induction fuel with
  | zero =>
    intro k
    right
    rfl
  | succ fuel ih =>
    intro k
    simp only [wait_go]
    by_cases ht : mw < elapsed k
    · rw [if_pos ht]
      left
      rfl
    · rw [if_neg ht]
      have hx : ¬ (ex k = true) := by
        rw [hall k]
        simp
      rw [if_neg hx]
      exact ih (k + 1)

theorem wait_go_finds (ex : Nat → Bool) (elapsed : Nat → Nat) (mw : Nat)
    (hm : StrictMono elapsed) :
    ∀ fuel k, mw + 2 ≤ fuel + k → k ≤ mw + 1 →
      (∃ j, k ≤ j ∧ elapsed j ≤ mw ∧ ex j = true) →
      ∃ j, wait_go ex elapsed mw fuel k = WaitOutcome.found j := by
  intro fuel
  induction fuel with
  | zero =>
    intro k h1 h2 _
    omega
  | succ fuel ih =>
    intro k h1 h2 hex
    simp only [wait_go]
    by_cases ht : mw < elapsed k
    · exfalso
      obtain ⟨j, hkj, hje, _⟩ := hex
      have hmono : elapsed k ≤ elapsed j := hm.monotone hkj
      omega
    · rw [if_neg ht]
      by_cases hx : ex k = true
      · rw [if_pos hx]
        exact ⟨k, rfl⟩
      · rw [if_neg hx]
        have ht2 : elapsed k ≤ mw := Nat.le_of_not_lt ht
        have hk2 : k ≤ elapsed k := hm.le_apply
        refine ih (k + 1) (by omega) (by omega) ?_
        obtain ⟨j, hkj, hje, hjx⟩ := hex
        refine ⟨j, ?_, hje, hjx⟩
        rcases Nat.lt_or_ge k j with h | h
        · omega
        · exfalso
          have hjk : j = k := by omega
          rw [hjk] at hjx
          exact absurd hjx hx

/-- Claim C6: the wait-for-file poll loop terminates on every input. With
strictly increasing observed time it never exhausts its iteration budget;
it stops with found only when the file exists at that poll; if the file
never appears it fails with the timeout instead of hanging; and if the file
appears within the deadline it is found. -/
theorem wait_for_file_terminates (ex : Nat → Bool) (elapsed : Nat → Nat) (mw : Nat)
    (hm : StrictMono elapsed) :
    wait_for_file ex elapsed mw ≠ WaitOutcome.fuelOut
    ∧ (∀ k, wait_for_file ex elapsed mw = WaitOutcome.found k → ex k = true)
    ∧ ((∀ k, ex k = false) → wait_for_file ex elapsed mw = WaitOutcome.timedOut)
    ∧ ((∃ k, elapsed k ≤ mw ∧ ex k = true) →
        ∃ j, wait_for_file ex elapsed mw = WaitOutcome.found j) := by
  refine ⟨?_, ?_, ?_, ?_⟩
  · exact wait_go_ne_fuelOut ex elapsed mw hm (mw + 2) 0 (by omega) (by omega)
  · intro k h
    exact wait_go_found_ex ex elapsed mw (mw + 2) 0 k h
  · intro hall
    rcases wait_go_all_false ex elapsed mw hall (mw + 2) 0 with h | h
    · exact h
    · exact absurd h (wait_go_ne_fuelOut ex elapsed mw hm (mw + 2) 0 (by omega) (by omega))
  · intro hex
    obtain ⟨k, hk1, hk2⟩ := hex
    exact wait_go_finds ex elapsed mw hm (mw + 2) 0 (by omega) (by omega)
      ⟨k, Nat.zero_le k, hk1, hk2⟩

/-- Witness for the C6 theorem: a file that never appears under the identity
time sequence and deadline 2. -/
theorem wait_for_file_terminates_witness :
    StrictMono (fun k : Nat => k)
    ∧ (wait_for_file (fun _ => false) (fun k => k) 2 ≠ WaitOutcome.fuelOut
      ∧ (∀ k, wait_for_file (fun _ => false) (fun k => k) 2 = WaitOutcome.found k
          → (fun _ : Nat => false) k = true)
      ∧ ((∀ k : Nat, (fun _ : Nat => false) k = false)
          → wait_for_file (fun _ => false) (fun k => k) 2 = WaitOutcome.timedOut)
      ∧ ((∃ k, (fun k : Nat => k) k ≤ 2 ∧ (fun _ : Nat => false) k = true)
          → ∃ j, wait_for_file (fun _ => false) (fun k => k) 2 = WaitOutcome.found j)) :=
  ⟨fun _ _ h => h, wait_for_file_terminates (fun _ => false) (fun k => k) 2 (fun _ _ h => h)⟩

/-- Claim C4 counterexample: in a shell where every command exits with
status 1, run_with_output dispatched async with ignore_errors false returns
ok with empty captures and raises nothing — the async dispatch returns the
sentinel -1 from run and the positivity check ignores it — while the very
same call in sync mode does raise CommandFailure with the captures,
showing the underlying status is non-zero. -/
theorem run_with_output_async_no_raise :
    (run_with_output shFail st0c "boom" true false).2 = Except.ok ("", "")
    ∧ (run_with_output shFail st0c "boom" false false).2
        = Except.error (LocalError.commandFailureOutput "boom" 1 "" "") := by
  exact ⟨by decide, by decide⟩

/-- Claim C4 (amended): for a sync run_with_output dispatch whose underlying
run call returns a positive status, the call raises CommandFailure carrying
the captured stdout and stderr when ignore_errors is false, and only logs a
warning (returning the captures) when ignore_errors is true. In async mode
no status check happens: run returns the sentinel -1, which the positivity
check ignores (see the counterexample). -/
theorem run_with_output_sync_gate (sh : Shell) (st : Sys) (cmd : String) (ie : Bool)
    (st2 : Sys) (status : Int)
    (hne : ¬ emptyOrComment (pyStrip cmd))
    (hnl : '\n' ∉ (pyStrip cmd).toList)
    (hrun : run sh { st with log := ("----" ++ pyStrip cmd) :: st.log }
        (pyStrip cmd ++ " > " ++ stdoutFn st.scratch st.run_counter
          ++ " 2> " ++ stderrFn st.scratch st.run_counter) false true
        = (st2, Except.ok status))
    (hpos : 0 < status) :
    (ie = false → (run_with_output sh st cmd false ie).2
        = Except.error (LocalError.commandFailureOutput (pyStrip cmd) status
            (file_read st2 (stdoutFn st.scratch st.run_counter))
            (file_read st2 (stderrFn st.scratch st.run_counter))))
    ∧ (ie = true →
        (run_with_output sh st cmd false ie).2
          = Except.ok (file_read st2 (stdoutFn st.scratch st.run_counter),
              file_read st2 (stderrFn st.scratch st.run_counter))
        ∧ ("Warning: command " ++ pyStrip cmd ++ " returned " ++ decIntRepr status)
            ∈ (run_with_output sh st cmd false ie).1.log) := by
  simp only [run_with_output]
  rw [if_neg hne, if_neg hnl]
  simp only [hrun]
  rw [if_pos hpos]
  cases ie with
  | false =>
    rw [if_neg (by simp)]
    exact ⟨fun _ => rfl, fun h => absurd h (by simp)⟩
  | true =>
    rw [if_pos rfl]
    exact ⟨fun h => absurd h (by simp), fun _ => ⟨rfl, List.mem_cons_self _ _⟩⟩

/-- Witness for the amended C4 theorem: the concrete failing command of the
counterexample, dispatched sync with ignore_errors false. -/
theorem run_with_output_sync_gate_witness :
    (¬ emptyOrComment (pyStrip "boom"))
    ∧ '\n' ∉ (pyStrip "boom").toList
    ∧ run shFail { st0c with log := ("----" ++ pyStrip "boom") :: st0c.log }
        (pyStrip "boom" ++ " > " ++ stdoutFn st0c.scratch st0c.run_counter
          ++ " 2> " ++ stderrFn st0c.scratch st0c.run_counter) false true
        = ((run shFail { st0c with log := ("----" ++ pyStrip "boom") :: st0c.log }
            (pyStrip "boom" ++ " > " ++ stdoutFn st0c.scratch st0c.run_counter
              ++ " 2> " ++ stderrFn st0c.scratch st0c.run_counter) false true).1,
           Except.ok 1)
    ∧ (0 : Int) < 1
    ∧ ((false = false → (run_with_output shFail st0c "boom" false false).2
        = Except.error (LocalError.commandFailureOutput (pyStrip "boom") 1
            (file_read (run shFail { st0c with log := ("----" ++ pyStrip "boom") :: st0c.log }
              (pyStrip "boom" ++ " > " ++ stdoutFn st0c.scratch st0c.run_counter
                ++ " 2> " ++ stderrFn st0c.scratch st0c.run_counter) false true).1
              (stdoutFn st0c.scratch st0c.run_counter))
            (file_read (run shFail { st0c with log := ("----" ++ pyStrip "boom") :: st0c.log }
              (pyStrip "boom" ++ " > " ++ stdoutFn st0c.scratch st0c.run_counter
                ++ " 2> " ++ stderrFn st0c.scratch st0c.run_counter) false true).1
              (stderrFn st0c.scratch st0c.run_counter))))
      ∧ (false = true →
          (run_with_output shFail st0c "boom" false false).2
            = Except.ok ((file_read (run shFail { st0c with log := ("----" ++ pyStrip "boom") :: st0c.log }
                (pyStrip "boom" ++ " > " ++ stdoutFn st0c.scratch st0c.run_counter
                  ++ " 2> " ++ stderrFn st0c.scratch st0c.run_counter) false true).1
                (stdoutFn st0c.scratch st0c.run_counter)),
                (file_read (run shFail { st0c with log := ("----" ++ pyStrip "boom") :: st0c.log }
                  (pyStrip "boom" ++ " > " ++ stdoutFn st0c.scratch st0c.run_counter
                    ++ " 2> " ++ stderrFn st0c.scratch st0c.run_counter) false true).1
                  (stderrFn st0c.scratch st0c.run_counter)))
          ∧ ("Warning: command " ++ pyStrip "boom" ++ " returned " ++ decIntRepr 1)
              ∈ (run_with_output shFail st0c "boom" false false).1.log)) :=
  ⟨by decide, by decide, Prod.ext rfl (by decide), by norm_num,
    run_with_output_sync_gate shFail st0c "boom" false _ 1 (by decide) (by decide)
      (Prod.ext rfl (by decide)) (by norm_num)⟩

/-- Claim C8 counterexample: upload with the absolute destination /x,
dont_overwrite true, and /x existing, returns ok as a silent skip instead
of failing with InvariantViolation — the dont_overwrite existence check
precedes the absolute-path assertion. -/
theorem upload_absolute_existing_no_error :
    (upload sh0 stAbs "loc" (some "/x") true).2 = Except.ok ()
    ∧ isAbs "/x" = true
    ∧ file_exists stAbs "/x" = true := by
  exact ⟨by decide, by decide, by decide⟩

/-- Claim C8 (amended): with dont_overwrite true and the destination path
existing as given, upload is a silent no-op (no filesystem change, nothing
sent); an absolute destination fails with InvariantViolation unless that
skip fires first, i.e. unless dont_overwrite is true and the absolute path
exists. -/
theorem upload_gate (sh : Shell) (st : Sys) (local_fn r : String) (dow : Bool) :
    ((dow = true ∧ file_exists st r = true) →
        (upload sh st local_fn (some r) dow).2 = Except.ok ()
        ∧ (upload sh st local_fn (some r) dow).1.fs = st.fs
        ∧ (upload sh st local_fn (some r) dow).1.sent = st.sent)
    ∧ ((isAbs r = true ∧ ¬ (dow = true ∧ file_exists st r = true)) →
        (upload sh st local_fn (some r) dow).2
          = Except.error (LocalError.invariantViolation AssertKind.absoluteRemotePath r)
        ∧ (upload sh st local_fn (some r) dow).1.fs = st.fs
        ∧ (upload sh st local_fn (some r) dow).1.sent = st.sent) := by
  constructor
  · rintro ⟨h1, h2⟩
    simp only [upload]
    have hc : (dow && file_exists
        { st with log := ("uploading " ++ local_fn) :: st.log } r) = true := by
      rw [h1, Bool.true_and]
      exact h2
    rw [if_pos hc]
    exact ⟨rfl, rfl, rfl⟩
  · rintro ⟨h1, h2⟩
    simp only [upload]
    have hc : ¬ ((dow && file_exists
        { st with log := ("uploading " ++ local_fn) :: st.log } r) = true) := by
      intro hcc
      rw [Bool.and_eq_true] at hcc
      exact h2 ⟨hcc.1, hcc.2⟩
    rw [if_neg hc, if_pos h1]
    exact ⟨rfl, rfl, rfl⟩

/-- Witness for the amended C8 theorem at the concrete skip scenario, with
the skip-branch hypothesis discharged concretely. -/
theorem upload_gate_witness :
    (true = true ∧ file_exists stAbs "/x" = true)
    ∧ ((upload sh0 stAbs "loc" (some "/x") true).2 = Except.ok ()
      ∧ (upload sh0 stAbs "loc" (some "/x") true).1.fs = stAbs.fs
      ∧ (upload sh0 stAbs "loc" (some "/x") true).1.sent = stAbs.sent) :=
  ⟨⟨rfl, by decide⟩, (upload_gate sh0 stAbs "loc" "/x" true).1 ⟨rfl, by decide⟩⟩

/-- Claim C7 counterexample: with the process cwd (/h) different from the
task working directory (/td), file_write stores the content at the
working-directory destination /td/f, yet a subsequent file_read of the same
path argument resolves it against the process cwd and returns the empty
string instead of the written content. -/
theorem file_write_read_not_roundtrip :
    (file_write shCp st0c "f" "hello" 7).2 = Except.ok ()
    ∧ file_read (file_write shCp st0c "f" "hello" 7).1 "f" = ""
    ∧ (file_write shCp st0c "f" "hello" 7).1.fs "/td/f" = some "hello" := by
  exact ⟨by decide, by decide, by decide⟩

theorem fileWriteTmp_def (st : Sys) (micros : Nat) :
    st.scratch ++ "/file_write." ++ decRepr micros = fileWriteTmp st micros := rfl

theorem fileWriteCp_def (st : Sys) (remote : String) (micros : Nat) :
    "cp -R " ++ fileWriteTmp st micros ++ " " ++ (st.taskdir ++ "/" ++ remote)
      = fileWriteCp st remote micros := rfl

/-- Claim C7 (amended): file_write stores the content at the
working-directory destination workingDir/path; the unprefixed round trip
file_read(path) returns the content exactly when the calling process
current working directory is the task working directory (file_read resolves
the path as given, without prefixing the working directory); and file_read
of a never-written path returns the empty string and never raises. The
side hypotheses say the scratch paths involved are distinct files and that
the dispatched copy command is an ordinary single command whose execution
copies the temp file to the destination with status 0. -/
theorem file_write_read_roundtrip (sh : Shell) (st : Sys) (remote contents : String)
    (micros : Nat)
    (hcwd : st.pcwd = st.taskdir)
    (habs : isAbs st.scratch = true)
    (hrel : isAbs remote = false)
    (hsent : st.fs (statusFn st.scratch (st.run_counter + 1)) = none)
    (htmp_status : fileWriteTmp st micros ≠ statusFn st.scratch (st.run_counter + 1))
    (htmp_cmd : fileWriteTmp st micros ≠ cmdFn st.scratch (st.run_counter + 1))
    (hdest_status : st.taskdir ++ "/" ++ remote ≠ statusFn st.scratch (st.run_counter + 1))
    (hne : ¬ emptyOrComment (pyStrip (fileWriteCp st remote micros)))
    (hamp : '&' ∉ (shell_strip_comment (pyStrip (fileWriteCp st remote micros))).toList)
    (hsh : ∀ f : FileSystem, f (fileWriteTmp st micros) = some contents →
        sh (shell_strip_comment (pyStrip (fileWriteCp st remote micros))) f
          = (FileSystem.update f (st.taskdir ++ "/" ++ remote) contents, 0)) :
    (file_write sh st remote contents micros).2 = Except.ok ()
    ∧ file_read (file_write sh st remote contents micros).1 remote = contents
    ∧ (∀ st2 p, st2.fs (resolve st2.pcwd p) = none → file_read st2 p = "") := by
  have htmpabs : isAbs (fileWriteTmp st micros) = true := by
    unfold fileWriteTmp
    exact isAbs_append _ _ (isAbs_append _ _ habs)
  have hres : resolve st.pcwd (fileWriteTmp st micros) = fileWriteTmp st micros :=
    resolve_abs _ _ htmpabs
  have hread0 : ∀ st2 p, st2.fs (resolve st2.pcwd p) = none → file_read st2 p = "" := by
    intro st2 p h
    simp [file_read, file_exists, h]
  have hsent2 : FileSystem.update st.fs (fileWriteTmp st micros) contents
      (statusFn st.scratch (st.run_counter + 1)) = none := by
    rw [FileSystem.update_ne _ _ _ _ (Ne.symm htmp_status)]
    exact hsent
  have hf3 : FileSystem.update
      (FileSystem.update st.fs (fileWriteTmp st micros) contents)
      (cmdFn st.scratch (st.run_counter + 1))
      (shell_strip_comment (pyStrip (fileWriteCp st remote micros)) ++ "\n")
      (fileWriteTmp st micros) = some contents := by
    rw [FileSystem.update_ne _ _ _ _ htmp_cmd]
    exact FileSystem.update_self _ _ _
  simp only [file_write, upload]
  rw [if_neg (by simp)]
  rw [if_neg (by simp [hrel])]
  rw [fileWriteTmp_def, hres, fileWriteCp_def]
  simp only [run]
  rw [if_neg hne, if_pos hsent2, if_neg hamp, if_neg (by simp)]
  rw [hsh _ hf3]
  simp only
  rw [if_pos trivial]
  simp only
  refine ⟨by trivial, ?_, hread0⟩
  have hkey : FileSystem.update
      (FileSystem.update
        (FileSystem.update
          (FileSystem.update st.fs (fileWriteTmp st micros) contents)
          (cmdFn st.scratch (st.run_counter + 1))
          (shell_strip_comment (pyStrip (fileWriteCp st remote micros)) ++ "\n"))
        (st.taskdir ++ "/" ++ remote) contents)
      (statusFn st.scratch (st.run_counter + 1)) (decIntRepr 0 ++ "\n")
      (resolve st.pcwd remote) = some contents := by
    rw [resolve_rel _ _ hrel, hcwd]
    rw [FileSystem.update_ne _ _ _ _ hdest_status]
    exact FileSystem.update_self _ _ _
  simp only [file_read, file_exists]
  rw [hkey]
  rfl

/-- Witness for the amended C7 theorem: the concrete scenario of the
counterexample but with the process cwd equal to the task working
directory, where the round trip does return the written content. -/
theorem file_write_read_roundtrip_witness :
    st1c.pcwd = st1c.taskdir
    ∧ isAbs st1c.scratch = true
    ∧ isAbs "f" = false
    ∧ st1c.fs (statusFn st1c.scratch (st1c.run_counter + 1)) = none
    ∧ fileWriteTmp st1c 7 ≠ statusFn st1c.scratch (st1c.run_counter + 1)
    ∧ fileWriteTmp st1c 7 ≠ cmdFn st1c.scratch (st1c.run_counter + 1)
    ∧ st1c.taskdir ++ "/" ++ "f" ≠ statusFn st1c.scratch (st1c.run_counter + 1)
    ∧ (¬ emptyOrComment (pyStrip (fileWriteCp st1c "f" 7)))
    ∧ '&' ∉ (shell_strip_comment (pyStrip (fileWriteCp st1c "f" 7))).toList
    ∧ ((file_write shCp st1c "f" "hello" 7).2 = Except.ok ()
      ∧ file_read (file_write shCp st1c "f" "hello" 7).1 "f" = "hello"
      ∧ (∀ st2 p, st2.fs (resolve st2.pcwd p) = none → file_read st2 p = "")) := by
  refine ⟨by decide, by decide, by decide, rfl, by decide, by decide, by decide,
    by decide, by decide, ?_⟩
  refine file_write_read_roundtrip shCp st1c "f" "hello" 7 (by decide) (by decide)
    (by decide) rfl (by decide) (by decide) (by decide) (by decide) (by decide) ?_
  intro f hf
  have he : fileWriteTmp st1c 7 = "/sc/file_write.7" := by decide
  have he2 : st1c.taskdir ++ "/" ++ "f" = "/td/f" := by decide
  rw [he] at hf
  show (FileSystem.update f "/td/f" ((f "/sc/file_write.7").getD "xx"), (0 : Int))
      = (FileSystem.update f (st1c.taskdir ++ "/" ++ "f") "hello", 0)
  rw [hf, he2]
  rfl

/-- Claim C9: make_job succeeds exactly when the task count is positive and
the name has at most one namespace separator, and then produces exactly
num_tasks Tasks named i.name for i in 0..num_tasks-1, grouped under one Job
whose Run contains exactly that Job. -/
theorem make_job_correct (nm : String) (n : Nat) (rn : Option String) :
    ((make_job (some nm) n rn).isOk = true ↔ 0 < n ∧ nm.toList.count '.' ≤ 1)
    ∧ (∀ r j, make_job (some nm) n rn = Except.ok (r, j) →
        j.tasks.map LTask.name = (List.range n).map (fun i => decRepr i ++ "." ++ nm)
        ∧ j.name = nm ∧ j.tasks.length = n ∧ r.jobs = [j] ∧ r.name = rn) := by
  constructor
  · simp only [make_job]
    by_cases h0 : n = 0
    · rw [if_pos h0]
      constructor
      · intro h
        simp [Except.isOk, Except.toBool] at h
      · rintro ⟨h1, _⟩
        omega
    · rw [if_neg h0]
      by_cases h1 : 1 < nm.toList.count '.'
      · rw [if_pos h1]
        constructor
        · intro h
          simp [Except.isOk, Except.toBool] at h
        · rintro ⟨_, h2⟩
          omega
      · rw [if_neg h1]
        constructor
        · intro _
          exact ⟨by omega, by omega⟩
        · intro _
          simp [Except.isOk, Except.toBool]
  · intro r j h
    simp only [make_job] at h
    by_cases h0 : n = 0
    · rw [if_pos h0] at h
      exact absurd h (by simp)
    · rw [if_neg h0] at h
      by_cases h1 : 1 < nm.toList.count '.'
      · rw [if_pos h1] at h
        exact absurd h (by simp)
      · rw [if_neg h1] at h
        simp only [Except.ok.injEq, Prod.mk.injEq] at h
        obtain ⟨hr, hj⟩ := h
        subst hr
        subst hj
        refine ⟨?_, rfl, ?_, rfl, rfl⟩
        · rw [List.map_map]
          rfl
        · rw [List.length_map, List.length_range]

/-- Witness for the C9 theorem at the concrete job of the specification
example: name demo, three tasks. -/
theorem make_job_correct_witness :
    ((make_job (some "demo") 3 none).isOk = true ↔ 0 < 3 ∧ "demo".toList.count '.' ≤ 1)
    ∧ (∀ r j, make_job (some "demo") 3 none = Except.ok (r, j) →
        j.tasks.map LTask.name = (List.range 3).map (fun i => decRepr i ++ "." ++ "demo")
        ∧ j.name = "demo" ∧ j.tasks.length = 3 ∧ r.jobs = [j] ∧ r.name = none) :=
  make_job_correct "demo" 3 none

/-- Claim C10: file_exists and file_read operate on the path string exactly
as given — resolving relative paths against the process cwd, with the Task
working directory playing no role — and the same unprefixed existence check
gates upload's dont_overwrite short-circuit: when the check fails,
dont_overwrite true behaves exactly as dont_overwrite false, and when it
holds, upload skips without touching the filesystem or the session. -/
theorem file_ops_unprefixed (st : Sys) (p td : String) :
    (file_exists { st with taskdir := td } p = file_exists st p
      ∧ file_read { st with taskdir := td } p = file_read st p)
    ∧ (isAbs p = false →
        file_exists st p = (st.fs (st.pcwd ++ "/" ++ p)).isSome
        ∧ file_read st p = (st.fs (st.pcwd ++ "/" ++ p)).getD "")
    ∧ (∀ sh local_fn, file_exists st p = false →
        upload sh st local_fn (some p) true = upload sh st local_fn (some p) false)
    ∧ (∀ sh local_fn, file_exists st p = true →
        (upload sh st local_fn (some p) true).2 = Except.ok ()
        ∧ (upload sh st local_fn (some p) true).1.fs = st.fs
        ∧ (upload sh st local_fn (some p) true).1.sent = st.sent) := by
  refine ⟨⟨rfl, rfl⟩, ?_, ?_, ?_⟩
  · intro h
    have hr := resolve_rel st.pcwd p h
    constructor
    · simp [file_exists, hr]
    · simp only [file_read, file_exists, hr]
      cases hx : st.fs (st.pcwd ++ "/" ++ p) with
      | none => simp
      | some v => simp
  · intro sh local_fn h
    have h2 : file_exists { st with log := ("uploading " ++ local_fn) :: st.log } p = false := h
    simp only [upload]
    have c1 : ¬ ((true && file_exists
        { st with log := ("uploading " ++ local_fn) :: st.log } p) = true) := by
      simp [h2]
    have c2 : ¬ ((false && file_exists
        { st with log := ("uploading " ++ local_fn) :: st.log } p) = true) := by
      simp
    rw [if_neg c1, if_neg c2]
  · intro sh local_fn h
    have h2 : file_exists { st with log := ("uploading " ++ local_fn) :: st.log } p = true := h
    simp only [upload]
    rw [if_pos (by simp [h2])]
    exact ⟨rfl, rfl, rfl⟩

/-- Witness for the C10 theorem: the skip branch exercised at the existing
absolute path /x. -/
theorem file_ops_unprefixed_witness :
    file_exists stAbs "/x" = true
    ∧ ((upload sh0 stAbs "lf" (some "/x") true).2 = Except.ok ()
      ∧ (upload sh0 stAbs "lf" (some "/x") true).1.fs = stAbs.fs
      ∧ (upload sh0 stAbs "lf" (some "/x") true).1.sent = stAbs.sent) :=
  ⟨by decide, (file_ops_unprefixed stAbs "/x" "/other").2.2.2 sh0 "lf" (by decide)⟩
